import Mathlib

/-!
Verification of the SQL compiler in `ibis/sql/compiler.py`.

The Python source is shallowly embedded: every class becomes a structure or
inductive type, every method a function.  Python exceptions are modelled with
an explicit error type threaded through `Except`.  Object identity (Python
`id(...)`, used as dictionary key and in `is` comparisons) is modelled with a
`Nat` identity carried by each node.  External collaborators that live in
`ibis.expr.base` / `ibis.util` (outside the compiler source) are modelled from
the specification and marked as such in their doc comments.
-/

namespace IbisSql

/-- Error kinds raised by the compiler.  `notImplemented` models Python's
`NotImplementedError` (the spec's *Unsupported*); `internalError` models
`com.InternalError`; `relationError` models `com.RelationError`; `indexError`,
`keyError` and `attributeError` model the built-in Python exceptions that
escape from list indexing, dictionary lookup and attribute access. -/
inductive Err where
  | internalError (msg : String)
  | relationError (msg : String)
  | notImplemented (msg : String)
  | indexError
  | keyError
  | attributeError
deriving DecidableEq, Repr

/-- Does an error carry the `InternalError` kind? -/
def Err.isInternal : Err → Bool
  | .internalError _ => true
  | _ => false

/-- Does an error carry the `NotImplementedError` (*Unsupported*) kind? -/
def Err.isUnsupported : Err → Bool
  | .notImplemented _ => true
  | _ => false

/-- The single-quote character, used by the string-literal formatter. -/
def squote : Char := Char.ofNat 39

/-- The backslash character, used to escape quotes in string literals. -/
def backslash : Char := Char.ofNat 92

/-- The backtick character, the identifier quote of the target dialect. -/
def backtick : Char := Char.ofNat 96

/-! ## QueryContext -/

/-- Embeds the Python dictionary `QueryContext.table_aliases`: an
insertion-ordered association list from node identity to alias string.
Updating an existing key keeps its position, a new key is appended,
exactly like a Python `dict`. -/
structure QueryContext where
  table_aliases : List (Nat × String)
deriving Repr

/-- A fresh context, as built by `QueryContext.__init__`. -/
def emptyContext : QueryContext := ⟨[]⟩

/-- Python-`dict` update: replace in place when the key exists, append
otherwise. -/
def updateAssoc : List (Nat × String) → Nat → String → List (Nat × String)
  | [], k, v => [(k, v)]
  | (k0, v0) :: rest, k, v =>
      if k0 = k then (k0, v) :: rest else (k0, v0) :: updateAssoc rest k v

/-- `QueryContext.set_alias`, keyed on the node identity. -/
def QueryContext.setAlias (ctx : QueryContext) (key : Nat) (a : String) :
    QueryContext :=
  ⟨updateAssoc ctx.table_aliases key a⟩

/-- `QueryContext.get_alias`: `dict.get`, i.e. `none` when absent. -/
def QueryContext.getAlias (ctx : QueryContext) (key : Nat) : Option String :=
  (ctx.table_aliases.find? (fun p => p.1 = key)).map (·.2)

/-- `QueryContext.has_alias`. -/
def QueryContext.hasAliasFor (ctx : QueryContext) (key : Nat) : Bool :=
  (ctx.getAlias key).isSome

/-- `QueryContext.need_aliases`: `len(self.table_aliases) > 1`. -/
def QueryContext.needAliases (ctx : QueryContext) : Bool :=
  ctx.table_aliases.length > 1

/-- `QueryContext.make_alias`: allocate `t{k}` where `k` is the current
number of bound aliases, then bind it. -/
def QueryContext.makeAlias (ctx : QueryContext) (key : Nat) : QueryContext :=
  ctx.setAlias key ("t" ++ toString ctx.table_aliases.length)

/-- Python's `'{}'.format(x)` where `x` may be `None`: `str(None) = "None"`. -/
def optionStr (o : Option String) : String := o.getD "None"

/-! ## Scalar expression IR

Modelled from the spec: the scalar IR nodes (`ibis.expr.base`) are external
to the compiler source.  Each operator kind the compiler's registry knows is
a constructor.  `negate` carries whether the wrapping expression is a
`BooleanValue` (the dynamic type test `isinstance(expr, ir.BooleanValue)`),
`column` carries the identity of the owning relation node and the field name,
and a literal carries its typeclass in its constructor. -/

/-- The `Cast` target types, the keys of `_sql_type_names`. -/
inductive CastType where
  | int8 | int16 | int32 | int64 | float | double | string | boolean
deriving DecidableEq, Repr

/-- The `_sql_type_names` mapping. -/
def CastType.sqlName : CastType → String
  | .int8 => "tinyint"
  | .int16 => "smallint"
  | .int32 => "int"
  | .int64 => "bigint"
  | .float => "float"
  | .double => "double"
  | .string => "string"
  | .boolean => "boolean"

/-- The thirteen operator kinds registered through `_binary_infix_op`. -/
inductive BinKind where
  | add | sub | mul | div | pow | andK | orK | eq | ne | ge | gt | le | lt
deriving DecidableEq, Repr

/-- The infix symbol each binary kind is registered with. -/
def BinKind.sym : BinKind → String
  | .add => "+"
  | .sub => "-"
  | .mul => "*"
  | .div => "/"
  | .pow => "^"
  | .andK => "AND"
  | .orK => "OR"
  | .eq => "="
  | .ne => "!="
  | .ge => ">="
  | .gt => ">"
  | .le => "<="
  | .lt => "<"

/-- The unary operator kinds registered through `_unary_op`. -/
inductive UnaryFn where
  | exp | sqrt | log | log2 | log10 | mean | sum
deriving DecidableEq, Repr

/-- The function name each unary kind is registered with. -/
def UnaryFn.fname : UnaryFn → String
  | .exp => "exp"
  | .sqrt => "sqrt"
  | .log => "log"
  | .log2 => "log2"
  | .log10 => "log10"
  | .mean => "avg"
  | .sum => "sum"

/-- Scalar value expressions consumed by `ExprTranslator`. -/
inductive Expr where
  | litBool (b : Bool)
  | litNum (n : Int)
  | litStr (s : String)
  | param
  | column (tableId : Nat) (name : String)
  | isNull (arg : Expr)
  | notNull (arg : Expr)
  | negate (isBoolean : Bool) (arg : Expr)
  | unary (f : UnaryFn) (arg : Expr)
  | binop (k : BinKind) (l r : Expr)
  | xor (l r : Expr)
  | cast (t : CastType) (arg : Expr)
deriving DecidableEq, Repr

/-- `_needs_parens`: the operator class is in `_binary_infix_ops` (which
holds the thirteen infix kinds and `Xor`) or is `Negate`. -/
def needsParensE : Expr → Bool
  | .binop _ _ _ => true
  | .xor _ _ => true
  | .negate _ _ => true
  | _ => false

/-- `_parenthesize`. -/
def parenthesize (s : String) : String := "(" ++ s ++ ")"

/-- `_quote_field`: backtick-quote only when the name contains a space
(`name.count(' ')` is truthy). -/
def quoteField (name : String) : String :=
  if name.data.contains ' ' then
    backtick.toString ++ name ++ backtick.toString
  else name

/-- `value.replace("'", "\\'")` in `_string_literal_format`. -/
def escapeQuotes (s : String) : String :=
  ⟨s.data.flatMap (fun c => if c = squote then [backslash, squote] else [c])⟩

/-- `_string_literal_format`: single-quoted with quotes escaped. -/
def formatStringLit (s : String) : String :=
  squote.toString ++ escapeQuotes s ++ squote.toString

/-- `ExprTranslator.translate`: dispatch on the operator kind.  Literals,
`Parameter` and `TableColumn` are handled first, then the operator
registry; `_trans_param` raises `NotImplementedError`. -/
def translateE (ctx : QueryContext) : Expr → Except Err String
  | .litBool b => .ok (if b then "TRUE" else "FALSE")
  | .litNum n => .ok n.repr
  | .litStr s => .ok (formatStringLit s)
  | .param => .error (.notImplemented "")
  | .column tableId name =>
      let field := quoteField name
      if ctx.needAliases then
        match ctx.getAlias tableId with
        | some a => .ok (a ++ "." ++ field)
        | none => .ok field
      else .ok field
  | .isNull a => do
      let s ← translateE ctx a
      .ok (s ++ " IS NULL")
  | .notNull a => do
      let s ← translateE ctx a
      .ok (s ++ " IS NOT NULL")
  | .negate isBoolean a => do
      let s ← translateE ctx a
      if isBoolean then
        .ok ("NOT " ++ s)
      else
        .ok ("-" ++ (if needsParensE a then parenthesize s else s))
  | .unary f a => do
      let s ← translateE ctx a
      .ok (f.fname ++ "(" ++ s ++ ")")
  | .binop k l r => do
      let ls ← translateE ctx l
      let rs ← translateE ctx r
      let ls := if needsParensE l then parenthesize ls else ls
      let rs := if needsParensE r then parenthesize rs else rs
      .ok (ls ++ " " ++ k.sym ++ " " ++ rs)
  | .xor l r => do
      let ls ← translateE ctx l
      let rs ← translateE ctx r
      let ls := if needsParensE l then parenthesize ls else ls
      let rs := if needsParensE r then parenthesize rs else rs
      .ok ("(" ++ ls ++ " OR " ++ rs ++ ")" ++ " AND NOT " ++
           ("(" ++ ls ++ " AND " ++ rs ++ ")"))
  | .cast t a => do
      let s ← translateE ctx a
      .ok ("CAST(" ++ s ++ " AS " ++ t.sqlName ++ ")")

/-! ## Relational IR

Modelled from the spec: the relational IR nodes live in `ibis.expr.base`,
outside the compiler source.  The constructors are the variants §3 of the
spec requires the compiler to recognize.  `MaterializedJoin` is a `Join`
"committed to a concrete output schema", so joins carry a `materialized`
flag; `isinstance(op, ir.Join)` holds for both and
`isinstance(op, ir.MaterializedJoin)` only when the flag is set. -/

/-- The seven join variants of `_JoinFormatter._join_names`. -/
inductive JoinKind where
  | inner | leftJ | rightJ | outer | leftAnti | leftSemi | cross
deriving DecidableEq, Repr

/-- The `_join_names` mapping. -/
def JoinKind.sqlName : JoinKind → String
  | .inner => "INNER JOIN"
  | .leftJ => "LEFT OUTER JOIN"
  | .rightJ => "RIGHT OUTER JOIN"
  | .outer => "FULL OUTER JOIN"
  | .leftAnti => "LEFT ANTI JOIN"
  | .leftSemi => "LEFT SEMI JOIN"
  | .cross => "CROSS JOIN"

/-- A sort key `{expr, ascending}` of `order_by`. -/
structure SortKey where
  expr : Expr
  ascending : Bool
deriving DecidableEq, Repr

/-- The `limit` record `{n, offset}`. -/
structure LimitSpec where
  n : Int
  offset : Option Int
deriving DecidableEq, Repr

mutual
/-- Relation nodes.  Each carries its Python object identity `nid`. -/
inductive TableNode where
  | physicalTable (nid : Nat) (name : Option String)
  | selfReference (nid : Nat) (table : TableNode)
  | projection (nid : Nat) (table : TableNode) (selections : List SelectItem)
  | aggregation (nid : Nat) (table : TableNode) (byKeys : List SelectItem)
      (aggExprs : List SelectItem) (havingPreds : List Expr)
  | filterNode (nid : Nat) (table : TableNode) (preds : List Expr)
  | limitNode (nid : Nat) (table : TableNode) (spec : LimitSpec)
  | sortByNode (nid : Nat) (table : TableNode) (keys : List SortKey)
  | joinNode (nid : Nat) (kind : JoinKind) (materialized : Bool)
      (left right : TableNode) (predicates : List Expr)

/-- An entry of a `select_set`: a value expression (with the result of
`expr.get_name()`, `none` when the expression has no name) or a table
expression denoting `*` expansion.  `eid` is the Python object identity of
the entry, which `format_group_by` compares with `is`. -/
inductive SelectItem where
  | value (eid : Nat) (e : Expr) (exprName : Option String)
  | table (eid : Nat) (t : TableNode)
end

/-- Python object identity of a select-set entry. -/
def SelectItem.sid : SelectItem → Nat
  | .value eid _ _ => eid
  | .table eid _ => eid

/-- Python object identity (`id(node)`) of a relation node. -/
def TableNode.nid : TableNode → Nat
  | .physicalTable n _ => n
  | .selfReference n _ => n
  | .projection n _ _ => n
  | .aggregation n _ _ _ _ => n
  | .filterNode n _ _ => n
  | .limitNode n _ _ => n
  | .sortByNode n _ _ => n
  | .joinNode n _ _ _ _ _ => n

/-- `isinstance(op, ir.Join)`. -/
def TableNode.isJoin : TableNode → Bool
  | .joinNode _ _ _ _ _ _ => true
  | _ => false

/-- `isinstance(op, ir.MaterializedJoin)`. -/
def TableNode.isMaterializedJoin : TableNode → Bool
  | .joinNode _ _ m _ _ _ => m
  | _ => false

/-- A table expression wrapper around a relation node; `_get_table_key`
unwraps it, so two wrappers of one node share one context key. -/
structure TableExpr where
  exprId : Nat
  op : TableNode

/-- `QueryContext._get_table_key` applied to a table expression. -/
def tableKeyOf (e : TableExpr) : Nat := e.op.nid

/-- `QueryContext.get_alias` called with a table expression. -/
def QueryContext.getAliasExpr (ctx : QueryContext) (e : TableExpr) :
    Option String :=
  ctx.getAlias (tableKeyOf e)

/-- Deduplicate keeping first occurrences (structurally, with a seen
accumulator). -/
def dedupFirstAux : List Nat → List Nat → List Nat
  | _, [] => []
  | seen, x :: xs =>
      if x ∈ seen then dedupFirstAux seen xs
      else x :: dedupFirstAux (x :: seen) xs

/-- Leaf relations in left-to-right visit order, possibly with repeats. -/
def collectLeaves : TableNode → List Nat
  | .joinNode _ _ _ l r _ => collectLeaves l ++ collectLeaves r
  | .selfReference _ t => collectLeaves t
  | .filterNode _ t _ => collectLeaves t
  | .limitNode _ t _ => collectLeaves t
  | .sortByNode _ t _ => collectLeaves t
  | .physicalTable nid _ => [nid]
  | .projection nid _ _ => [nid]
  | .aggregation nid _ _ _ _ => [nid]

/-- Modelled from the spec: `TableExpr._root_tables` is external IR code.
Per the source comment in `populate_context` ("the distinct relations used
to output this select statement") and spec §4.3, it yields the distinct
root relations of the table set in tree-walk order. -/
def rootTables (t : TableNode) : List Nat :=
  dedupFirstAux [] (collectLeaves t)

/-- Binding the aliases for a list of roots: the loop body of
`Select.populate_context`, `context.make_alias(table)` per root. -/
def populateRoots (roots : List Nat) (ctx : QueryContext) : QueryContext :=
  roots.foldl QueryContext.makeAlias ctx

/-! ## Select -/

/-- A subquery entry of `Select.subqueries`.  The constructor always stores
the empty list, so the recursive `populate_context` call on entries never
runs; the stored effect stands in for that recursive call. -/
structure SubQuery where
  populateEffect : QueryContext → QueryContext

/-- The `Select` record.  `whereList` embeds the Python attribute `where`
(a Lean keyword). -/
structure Select where
  select_set : List SelectItem
  table_set : TableNode
  whereList : List Expr
  group_by : List SelectItem
  having : List Expr
  order_by : List SortKey
  limit : Option LimitSpec
  parent_expr : Option TableNode
  subqueries : List SubQuery
  indent : Nat

/-- `Select.__init__`.  Optional arguments model the `None` defaults, and
`x or []` becomes `Option.getD`.  Note `self.subqueries = []`: the
`subqueries` argument is accepted and then discarded. -/
def mkSelect (table_set : TableNode) (select_set : List SelectItem)
    (whereArg : Option (List Expr)) (groupByArg : Option (List SelectItem))
    (orderByArg : Option (List SortKey)) (limit : Option LimitSpec)
    (havingArg : Option (List Expr)) (_subqueriesArg : Option (List SubQuery))
    (parentExpr : Option TableNode) (indent : Nat) : Select :=
  { select_set := select_set
    table_set := table_set
    whereList := whereArg.getD []
    group_by := groupByArg.getD []
    having := havingArg.getD []
    order_by := orderByArg.getD []
    limit := limit
    parent_expr := parentExpr
    subqueries := []
    indent := indent }

/-- `Select.populate_context`: populate each subquery's context, then make
an alias for every root of the table set. -/
def Select.populateContext (s : Select) (ctx : QueryContext) : QueryContext :=
  populateRoots (rootTables s.table_set)
    (s.subqueries.foldl (fun c q => q.populateEffect c) ctx)

/-- `Select.format_subqueries` is `pass`, i.e. always `None`. -/
def Select.formatSubqueries (_s : Select) (_ctx : QueryContext) :
    Option String :=
  none

/-- Python `'\n'.join(prefix + line for line in text.split('\n'))` split on
a single newline, preserving empty pieces. -/
def splitLinesAux : List Char → List Char → List String
  | [], acc => [⟨acc.reverse⟩]
  | c :: rest, acc =>
      if c = '\n' then ⟨acc.reverse⟩ :: splitLinesAux rest []
      else splitLinesAux rest (c :: acc)

/-- `text.split('\n')`. -/
def splitLines (s : String) : List String := splitLinesAux s.data []

/-- Modelled from the spec: `util.indent(text, spaces)` is external utility
code; per spec §4.3 it indents every line of the fragment by the given
number of spaces. -/
def utilIndent (spaces : Nat) (text : String) : String :=
  String.intercalate "\n"
    ((splitLines text).map (fun line => ⟨List.replicate spaces ' '⟩ ++ line))

/-- The `_needs_name` test of `ExprTranslator` under `named` mode: a plain
column reference needs a name only when renamed. -/
def needsName (named : Bool) (e : Expr) (nameOpt : Option String) : Bool :=
  if !named then false
  else match e with
    | .column _ fn => (nameOpt.getD fn) != fn
    | _ => true

/-- `ExprTranslator.get_result` (also `translate_expr`): translate, then
append `AS <quoted name>` when a name is needed.  `expr.get_name()` on an
expression without a name raises; spec §4.2 notes "this could fail". -/
def translatorGetResult (ctx : QueryContext) (named : Bool) (e : Expr)
    (nameOpt : Option String) : Except Err String := do
  let translated ← translateE ctx e
  if needsName named e nameOpt then
    match nameOpt with
    | some n => .ok (translated ++ " AS " ++ quoteField n)
    | none => .error (.notImplemented "expression has no name")
  else .ok translated

/-- One entry of `format_select_set`: a value expression is translated with
`named = true`; a table expression renders `alias.*` or `*`. -/
def formatSelectItem (ctx : QueryContext) : SelectItem → Except Err String
  | .value _ e nameOpt => translatorGetResult ctx true e nameOpt
  | .table _ t =>
      .ok (if ctx.needAliases then optionStr (ctx.getAlias t.nid) ++ ".*"
           else "*")

/-- The comma/line-length packing loop of `format_select_set` over already
formatted entries; state is `(buffer, line_length, index)`. -/
def packSelect (indent : Nat) (formatted : List String) : String :=
  (formatted.foldl
    (fun (acc : String × Nat × Nat) val =>
      let buf := acc.1
      let lineLength := acc.2.1
      let i := acc.2.2
      if val.data.contains '\n' then
        ((if i ≠ 0 then buf ++ "," else buf) ++ "\n" ++
          utilIndent indent val ++ "\n", (0, i + 1))
      else if lineLength ≠ 0 ∧ val.length + lineLength > 70 then
        (buf ++ (if i ≠ 0 then ",\n" else "\n") ++ val, (val.length, i + 1))
      else
        ((if i ≠ 0 then buf ++ ", " else buf) ++ val,
          (lineLength + val.length + 2, i + 1)))
    ("", (0, 0))).1

/-- `Select.format_select_set`. -/
def formatSelectSet (ctx : QueryContext) (indent : Nat)
    (items : List SelectItem) : Except Err String := do
  let formatted ← items.mapM (formatSelectItem ctx)
  .ok ("SELECT " ++ packSelect indent formatted)

/-- `op.name` attribute access: only physical tables have a name slot. -/
def nodeNameAttr : TableNode → Except Err (Option String)
  | .physicalTable _ name => .ok name
  | _ => .error .attributeError

/-- `_format_table`: the table's name, suffixed with its alias when aliases
are needed; `RelationError` when the name is `None`. -/
def formatTable (ctx : QueryContext) (t : TableNode) : Except Err String := do
  match ← nodeNameAttr t with
  | none => .error (.relationError "Table did not have a name")
  | some name =>
      if ctx.needAliases then
        .ok (name ++ " " ++ optionStr (ctx.getAlias t.nid))
      else .ok name

/-- The three flat lists accumulated by `_JoinFormatter`. -/
structure JoinState where
  join_tables : List String
  join_types : List String
  join_predicates : List (List Expr)

/-- `self._join_names[type(op)]`: a `MaterializedJoin` class is not a key
of the dictionary, so the lookup raises `KeyError` for it. -/
def joinNameOf (kind : JoinKind) (materialized : Bool) : Except Err String :=
  if materialized then .error .keyError else .ok kind.sqlName

/-- `_JoinFormatter._walk_join_tree`.  Attribute access `op.left` on a
non-join raises; a join-of-joins and a right-leaning join raise
`NotImplementedError`. -/
def walkJoinTree (ctx : QueryContext) (st : JoinState) :
    TableNode → Except Err JoinState
  | .joinNode _ kind mat l r preds =>
      if l.isJoin && r.isJoin then
        .error (.notImplemented "Do not support joins between joins yet")
      else do
        let jname ← joinNameOf kind mat
        if l.isJoin then do
          let st2 ← walkJoinTree ctx st l
          let rightTable ← formatTable ctx r
          .ok ⟨st2.join_tables ++ [rightTable], st2.join_types ++ [jname],
               st2.join_predicates ++ [preds]⟩
        else if r.isJoin then
          .error (.notImplemented "not allowing joins on right side yet")
        else do
          let leftTable ← formatTable ctx l
          let rightTable ← formatTable ctx r
          .ok ⟨st.join_tables ++ [leftTable, rightTable],
               st.join_types ++ [jname], st.join_predicates ++ [preds]⟩
  | _ => .error .attributeError

/-- Python `zip` over three lists (stops at the shortest). -/
def zip3 : List String → List String → List (List Expr) →
    List (String × String × List Expr)
  | a :: as, b :: bs, c :: cs => (a, b, c) :: zip3 as bs cs
  | _, _, _ => []

/-- `_JoinFormatter.get_result`: walk, then render the first table followed
by indented `<kind> <table>` rows with optional `ON` predicate blocks. -/
def joinGetResult (ctx : QueryContext) (indent : Nat) (t : TableNode) :
    Except Err String := do
  let st ← walkJoinTree ctx ⟨[], [], []⟩ t
  match st.join_tables with
  | [] => .error .indexError
  | t0 :: rest =>
      (zip3 st.join_types rest st.join_predicates).foldlM
        (fun buf row => do
          let buf := buf ++ "\n" ++ utilIndent indent (row.1 ++ " " ++ row.2.1)
          if row.2.2.length ≠ 0 then
            let fmtPreds ← row.2.2.mapM (fun p => translateE ctx p)
            let conj := " AND\n" ++ "   "
            .ok (buf ++ "\n" ++
                 utilIndent (indent * 2)
                   ("ON " ++ String.intercalate conj fmtPreds))
          else .ok buf)
        t0

/-- `Select.format_table_set`: `FROM` plus either the join rendering or the
bare (possibly aliased) table name. -/
def formatTableSet (ctx : QueryContext) (t : TableNode) :
    Except Err String :=
  match t with
  | .joinNode _ _ _ _ _ _ => do
      let res ← joinGetResult ctx 2 t
      .ok ("FROM " ++ res)
  | _ => do
      let res ← formatTable ctx t
      .ok ("FROM " ++ res)

/-- `Select.format_where`: `None` when empty, else `WHERE` with ` AND`
six-space-indented continuation lines. -/
def formatWhere (ctx : QueryContext) (preds : List Expr) :
    Except Err (Option String) :=
  if preds.length = 0 then .ok none
  else do
    let fmtPreds ← preds.mapM (fun p => translateE ctx p)
    .ok (some ("WHERE " ++ String.intercalate (" AND\n" ++ "      ") fmtPreds))

/-- The loop body of `format_group_by`: compare, by identity, each group-by
entry with the select-set entry at the same index.  A mismatch raises
`InternalError`; indexing past the end of the select set raises
`IndexError`. -/
def checkGroupByOrder : List SelectItem → List SelectItem → Except Err Unit
  | [], _ => .ok ()
  | _ :: _, [] => .error .indexError
  | g :: gs, s :: ss =>
      if g.sid = s.sid then checkGroupByOrder gs ss
      else .error (.internalError "Select was improperly formed")

/-- The rendered clause `GROUP BY 1, 2, …, k`. -/
def groupByClause (k : Nat) : String :=
  "GROUP BY " ++
    String.intercalate ", " ((List.range k).map (fun x => toString (x + 1)))

/-- `Select.format_group_by`: `None` when `group_by` is empty, otherwise
verify the prefix invariant and emit positional keys. -/
def formatGroupBy (group_by select_set : List SelectItem) :
    Except Err (Option String) :=
  if group_by.length = 0 then .ok none
  else do
    checkGroupByOrder group_by select_set
    .ok (some (groupByClause group_by.length))

/-- `Select.format_postamble`: `ORDER BY` keys (with `DESC` for descending)
and `LIMIT n [OFFSET m]`; `None` when both parts are absent. -/
def formatPostamble (ctx : QueryContext) (order_by : List SortKey)
    (limit : Option LimitSpec) : Except Err (Option String) := do
  let orderPart ←
    if order_by.length > 0 then do
      let formatted ← order_by.mapM (fun key => do
        let translated ← translateE ctx key.expr
        pure (if key.ascending then translated else translated ++ " DESC"))
      pure (some ("ORDER BY " ++ String.intercalate ", " formatted))
    else pure (none : Option String)
  let limitPart : Option String :=
    limit.map (fun l =>
      "LIMIT " ++ l.n.repr ++
        (match l.offset with
         | some o => " OFFSET " ++ o.repr
         | none => ""))
  match orderPart, limitPart with
  | none, none => .ok none
  | some o, none => .ok (some o)
  | none, some l => .ok (some l)
  | some o, some l => .ok (some (o ++ "\n" ++ l))

/-- `_join_not_none`. -/
def joinNotNone (sep : String) (pieces : List (Option String)) : String :=
  String.intercalate sep (pieces.filterMap id)

/-- `Select.compile`: fresh context when none is given, populate it, run
the five clause formatters in order and glue the non-`None` fragments. -/
def Select.compile (s : Select) (context : Option QueryContext) :
    Except Err String := do
  let ctx := match context with
    | none => emptyContext
    | some c => c
  let ctx := s.populateContext ctx
  let withFrag := s.formatSubqueries ctx
  let selectFrag ← formatSelectSet ctx s.indent s.select_set
  let fromFrag ← formatTableSet ctx s.table_set
  let whereFrag ← formatWhere ctx s.whereList
  let groupbyFrag ← formatGroupBy s.group_by s.select_set
  let orderFrag ← formatPostamble ctx s.order_by s.limit
  .ok (joinNotNone "\n"
    [withFrag, some selectFrag, some fromFrag, whereFrag, groupbyFrag,
     orderFrag])

/-! ## QueryASTBuilder -/

/-- The `{filters, limit, sort_by}` record of `collect_modifiers`. -/
structure Modifiers where
  filters : List Expr
  limit : Option LimitSpec
  sort_by : List SortKey

/-- Modelled from the spec: `ir.collect_modifiers` is external IR code; per
spec §4.4/§9 it gathers the Filter/Limit/SortBy wrappers on top of the
expression, AND-composing filters while the last-encountered (innermost)
`limit` and `sort_by` win. -/
def collectModifiers : TableNode → Modifiers
  | .filterNode _ t preds =>
      let m := collectModifiers t
      ⟨preds ++ m.filters, m.limit, m.sort_by⟩
  | .limitNode _ t spec =>
      let m := collectModifiers t
      ⟨m.filters, some (m.limit.getD spec), m.sort_by⟩
  | .sortByNode _ t keys =>
      let m := collectModifiers t
      ⟨m.filters, m.limit, if m.sort_by.isEmpty then keys else m.sort_by⟩
  | _ => ⟨[], none, []⟩

/-- The modifier-shedding loop of `_build_select`: unwrap while the root is
Filter/Limit/SortBy. -/
def shedModifierStack : TableNode → TableNode
  | .filterNode _ t _ => shedModifierStack t
  | .limitNode _ t _ => shedModifierStack t
  | .sortByNode _ t _ => shedModifierStack t
  | t => t

/-- Modelled from the spec: `expr.materialize()` is external IR code; per
spec §4.4 it turns a join into a `MaterializedJoin`.  On a non-join the
attribute does not exist. -/
def materialize : TableNode → Except Err TableNode
  | .joinNode nid kind _ l r preds => .ok (.joinNode nid kind true l r preds)
  | _ => .error .attributeError

/-- Modelled from the spec: `ir.substitute_parents` is external IR
normalization with no further specified behaviour; on already-normalized
expressions it is the identity. -/
def substituteParents (t : TableNode) : TableNode := t

/-- The builder state: input expression, its normalization, the shared
context and the accumulated query list. -/
structure QueryASTBuilder where
  expr : TableNode
  base_expr : TableNode
  context : QueryContext
  queries : List Select

/-- `QueryASTBuilder.__init__` with `context=None`. -/
def mkBuilder (expr : TableNode) : QueryASTBuilder :=
  { expr := expr
    base_expr := substituteParents expr
    context := emptyContext
    queries := [] }

/-- `QueryASTBuilder._build_select`.  Note two source subtleties embedded
faithfully: the materialization branch calls `self.base_expr.materialize()`
(the builder's unshed expression) and only rebinds the local `base_node`,
leaving `base_expr` — and hence the constructed `table_set` — at the shed,
unmaterialized expression. -/
def buildSelect (b : QueryASTBuilder) : Except Err Select := do
  let source_table := b.expr
  let modifiers := collectModifiers source_table
  let base0 := shedModifierStack b.base_expr
  let baseNode1 ←
    if base0.isJoin && !base0.isMaterializedJoin then
      materialize b.base_expr
    else
      pure base0
  let stepped : TableNode × TableNode :=
    match baseNode1 with
    | .selfReference _ t => (t, t)
    | _ => (base0, baseNode1)
  let baseExpr2 := stepped.1
  let baseNode2 := stepped.2
  match baseNode2 with
  | .projection _ tbl sels =>
      .ok (mkSelect tbl sels (some modifiers.filters) none
        (some modifiers.sort_by) modifiers.limit none none (some b.expr) 2)
  | .aggregation _ tbl byKeys aggs hav =>
      .ok (mkSelect tbl (byKeys ++ aggs) (some modifiers.filters)
        (some byKeys) (some modifiers.sort_by) modifiers.limit (some hav)
        none (some b.expr) 2)
  | .joinNode _ _ true l _ _ =>
      .ok (mkSelect baseExpr2 [.table l.nid l, .table l.nid l]
        (some modifiers.filters) none (some modifiers.sort_by)
        modifiers.limit none none (some b.expr) 2)
  | .physicalTable _ _ =>
      .ok (mkSelect baseExpr2 [.table baseExpr2.nid baseExpr2]
        (some modifiers.filters) none (some modifiers.sort_by)
        modifiers.limit none none (some b.expr) 2)
  | _ => .error (.notImplemented "")

/-- The `(context, queries)` pair returned by the builder. -/
structure QueryAST where
  context : QueryContext
  queries : List Select

/-- `QueryASTBuilder._wrap_result`. -/
def wrapResult (b : QueryASTBuilder) : QueryAST := ⟨b.context, b.queries⟩

/-- `QueryASTBuilder.get_result`: return immediately when queries were
already built, else build setup queries (none), the primary select and
teardown queries (none).  Returns the AST together with the updated
builder state. -/
def getResult (b : QueryASTBuilder) :
    Except Err (QueryAST × QueryASTBuilder) :=
  if b.queries.length > 0 then .ok (wrapResult b, b)
  else do
    let setupQueries : List Select := []
    let teardownQueries : List Select := []
    let q ← buildSelect b
    let b2 := { b with
      queries := (b.queries ++ setupQueries ++ [q]) ++ teardownQueries }
    .ok (wrapResult b2, b2)

/-- `build_ast`. -/
def buildAst (expr : TableNode) : Except Err (QueryAST × QueryASTBuilder) :=
  getResult (mkBuilder expr)

/-- `to_sql` via `_get_query`: build the AST, take `queries[0]` and compile
it with a fresh context. -/
def toSql (expr : TableNode) : Except Err String := do
  let astPair ← buildAst expr
  match astPair.1.queries with
  | [] => .error .indexError
  | q :: _ => q.compile none

/-! ## Occurrence of the token `XOR`, and cleanliness of atoms

These definitions support the analysis of the XOR rewrite: `hasXOR` scans a
character list for the contiguous substring `XOR`; `CleanE` says the
user-supplied atoms of an expression (rendered literals and identifiers) do
not contain it. -/

/-- Scan for the contiguous substring `XOR`. -/
def hasXOR : List Char → Bool
  | x :: o :: r :: rest =>
      (x == 'X' && o == 'O' && r == 'R') || hasXOR (o :: r :: rest)
  | _ => false

/-- The string does not contain the substring `XOR`. -/
abbrev noXOR (s : String) : Prop := hasXOR s.data = false

/-- The first character (if any) cannot continue an `XOR` occurrence begun
to the left. -/
def headSafeChars : List Char → Bool
  | [] => true
  | c :: _ => !(c == 'O') && !(c == 'R')

/-- The last character (if any) cannot begin an `XOR` occurrence completed
to the right. -/
def lastSafeChars (l : List Char) : Bool :=
  match l.getLast? with
  | none => true
  | some c => !(c == 'X') && !(c == 'O')

/-- Every rendered atom of the expression — formatted string literal or
(quoted) column name — avoids the substring `XOR`. -/
def CleanE : Expr → Prop
  | .litBool _ => True
  | .litNum _ => True
  | .litStr s => noXOR (formatStringLit s)
  | .param => True
  | .column _ name => noXOR (quoteField name)
  | .isNull a => CleanE a
  | .notNull a => CleanE a
  | .negate _ a => CleanE a
  | .unary _ a => CleanE a
  | .binop _ l r => CleanE l ∧ CleanE r
  | .xor l r => CleanE l ∧ CleanE r
  | .cast _ a => CleanE a

/-- Every alias bound in the context avoids the substring `XOR`. -/
def CleanCtx (ctx : QueryContext) : Prop :=
  ∀ p ∈ ctx.table_aliases, noXOR p.2

/-- Does the expression contain a `Parameter` node? -/
def containsParam : Expr → Bool
  | .param => true
  | .isNull a => containsParam a
  | .notNull a => containsParam a
  | .negate _ a => containsParam a
  | .unary _ a => containsParam a
  | .binop _ l r => containsParam l || containsParam r
  | .xor l r => containsParam l || containsParam r
  | .cast _ a => containsParam a
  | _ => false

/-! ## Identity-prefix predicates for the group-by invariant -/

/-- The group-by list is, by object identity, an initial segment of the
select set. -/
def isIdPrefixOf : List SelectItem → List SelectItem → Bool
  | [], _ => true
  | _ :: _, [] => false
  | g :: gs, s :: ss => (g.sid == s.sid) && isIdPrefixOf gs ss

/-- The two lists agree, by object identity, on their overlap. -/
def overlapMatches : List SelectItem → List SelectItem → Bool
  | [], _ => true
  | _ :: _, [] => true
  | g :: gs, s :: ss => (g.sid == s.sid) && overlapMatches gs ss

/-- The association list `populate_context` builds for roots starting at
alias counter `n`. -/
def aliasListFrom (n : Nat) : List Nat → List (Nat × String)
  | [] => []
  | r :: rs => (r, "t" ++ toString n) :: aliasListFrom (n + 1) rs

/-! ## Basic monadic reduction lemmas -/

theorem exBind_ok {α β : Type} (a : α) (f : α → Except Err β) :
    (Except.ok a >>= f) = f a := rfl

theorem exBind_error {α β : Type} (e : Err) (f : α → Except Err β) :
    ((Except.error e : Except Err α) >>= f) = .error e := rfl

theorem exPure {α : Type} (a : α) : (pure a : Except Err α) = .ok a := rfl

attribute [simp] exBind_ok exBind_error exPure

/-! ## Lemmas about `hasXOR` -/

theorem hasXOR_nil : hasXOR [] = false := rfl

theorem hasXOR_single (a : Char) : hasXOR [a] = false := rfl

theorem hasXOR_pair (a b : Char) : hasXOR [a, b] = false := rfl

theorem hasXOR_cons₃ (a b c : Char) (l : List Char) :
    hasXOR (a :: b :: c :: l) =
      ((a == 'X' && b == 'O' && c == 'R') || hasXOR (b :: c :: l)) := rfl

theorem hasXOR_cons_false {a : Char} {l : List Char}
    (h : hasXOR (a :: l) = false) : hasXOR l = false := by
  match l with
  | [] => rfl
  | [b] => rfl
  | b :: c :: l' =>
      rw [hasXOR_cons₃, Bool.or_eq_false_iff] at h
      exact h.2

theorem hasXOR_mem_X : ∀ {l : List Char}, hasXOR l = true → 'X' ∈ l
  | a :: b :: c :: l', h => by
      rw [hasXOR_cons₃, Bool.or_eq_true] at h
      cases h with
      | inl h =>
          simp only [Bool.and_eq_true, beq_iff_eq] at h
          simp [h.1.1]
      | inr h => exact List.mem_cons_of_mem _ (hasXOR_mem_X h)

theorem hasXOR_of_no_X {l : List Char} (h : 'X' ∉ l) : hasXOR l = false := by
  cases hx : hasXOR l with
  | false => rfl
  | true => exact absurd (hasXOR_mem_X hx) h

theorem lastSafeChars_cons_cons (a b : Char) (l : List Char) :
    lastSafeChars (a :: b :: l) = lastSafeChars (b :: l) := by
  simp [lastSafeChars, List.getLast?_cons_cons]

/-- Appending cannot create an `XOR` occurrence when either the left part
ends safely or the right part starts safely. -/
theorem hasXOR_append : ∀ (s t : List Char), hasXOR s = false →
    hasXOR t = false →
    (lastSafeChars s = true ∨ headSafeChars t = true) →
    hasXOR (s ++ t) = false
  | [], t, _, ht, _ => by simpa using ht
  | [a], t, _, ht, hsafe => by
      match t with
      | [] => rfl
      | [u] => rfl
      | u :: v :: t' =>
          show hasXOR (a :: u :: v :: t') = false
          rw [hasXOR_cons₃, Bool.or_eq_false_iff]
          refine ⟨?_, ht⟩
          cases hsafe with
          | inl h =>
              simp only [lastSafeChars, List.getLast?_singleton,
                Bool.and_eq_true, Bool.not_eq_eq_eq_not, Bool.not_true,
                beq_eq_false_iff_ne, ne_eq] at h
              simp [h.1]
          | inr h =>
              simp only [headSafeChars, Bool.and_eq_true,
                Bool.not_eq_eq_eq_not, Bool.not_true, beq_eq_false_iff_ne,
                ne_eq] at h
              simp [h.1]
  | a :: c :: rest2, t, hs, ht, hsafe => by
      have hs' : hasXOR (c :: rest2) = false := hasXOR_cons_false hs
      have hsafe' : lastSafeChars (c :: rest2) = true ∨
          headSafeChars t = true := by
        cases hsafe with
        | inl h => exact Or.inl (by rwa [lastSafeChars_cons_cons] at h)
        | inr h => exact Or.inr h
      have ih := hasXOR_append (c :: rest2) t hs' ht hsafe'
      show hasXOR (a :: c :: (rest2 ++ t)) = false
      match rest2 with
      | [] =>
          match t with
          | [] => rfl
          | d :: t' =>
              show hasXOR (a :: c :: d :: t') = false
              rw [hasXOR_cons₃, Bool.or_eq_false_iff]
              refine ⟨?_, by simpa using ih⟩
              cases hsafe with
              | inl h =>
                  simp only [lastSafeChars, List.getLast?_cons_cons,
                    List.getLast?_singleton, Bool.and_eq_true,
                    Bool.not_eq_eq_eq_not, Bool.not_true,
                    beq_eq_false_iff_ne, ne_eq] at h
                  simp [h.2]
              | inr h =>
                  simp only [headSafeChars, Bool.and_eq_true,
                    Bool.not_eq_eq_eq_not, Bool.not_true,
                    beq_eq_false_iff_ne, ne_eq] at h
                  simp [h.2]
      | e :: rest3 =>
          show hasXOR (a :: c :: e :: (rest3 ++ t)) = false
          rw [hasXOR_cons₃, Bool.or_eq_false_iff]
          refine ⟨?_, by simpa using ih⟩
          rw [hasXOR_cons₃, Bool.or_eq_false_iff] at hs
          exact hs.1

/-! ## String-level `noXOR` combinators -/

theorem noXOR_append_left {s t : String} (hs : noXOR s) (ht : noXOR t)
    (h : lastSafeChars s.data = true) : noXOR (s ++ t) := by
  unfold noXOR at *
  rw [String.data_append]
  exact hasXOR_append _ _ hs ht (Or.inl h)

theorem noXOR_append_right {s t : String} (hs : noXOR s) (ht : noXOR t)
    (h : headSafeChars t.data = true) : noXOR (s ++ t) := by
  unfold noXOR at *
  rw [String.data_append]
  exact hasXOR_append _ _ hs ht (Or.inr h)

theorem lastSafeChars_append (l₁ l₂ : List Char)
    (h : lastSafeChars l₂ = true) (hne : l₂ ≠ []) :
    lastSafeChars (l₁ ++ l₂) = true := by
  unfold lastSafeChars at *
  rw [List.getLast?_append]
  cases hc : l₂.getLast? with
  | none => exact absurd (List.getLast?_eq_none_iff.mp hc) hne
  | some c =>
      rw [hc] at h
      simpa [Option.or] using h

theorem lastSafe_str_append (s g : String) (h : lastSafeChars g.data = true)
    (hne : g.data ≠ []) : lastSafeChars (s ++ g).data = true := by
  rw [String.data_append]
  exact lastSafeChars_append _ _ h hne

/-- Gluing two clean strings with a clean separator that is safe on both
sides. -/
theorem noXOR_glue {s t : String} (g : String) (hs : noXOR s) (ht : noXOR t)
    (hg : noXOR g) (hhead : headSafeChars g.data = true)
    (hlast : lastSafeChars g.data = true) (hne : g.data ≠ []) :
    noXOR (s ++ g ++ t) :=
  noXOR_append_left (noXOR_append_right hs hg hhead) ht
    (lastSafe_str_append s g hlast hne)

theorem noXOR_paren {s : String} (hs : noXOR s) : noXOR (parenthesize s) :=
  noXOR_append_right
    (noXOR_append_left (by decide) hs (by decide)) (by decide) (by decide)

/-! ## The decimal rendering of an integer never contains `XOR` -/

theorem digitChar_ne_X (m : Nat) (h : m < 10) : Nat.digitChar m ≠ 'X' := by
  interval_cases m <;> decide

theorem toDigitsCore_no_X :
    ∀ (f n : Nat) (acc : List Char), (∀ c ∈ acc, c ≠ 'X') →
      ∀ c ∈ Nat.toDigitsCore 10 f n acc, c ≠ 'X' := by
  intro f
  induction f with
  | zero => intro n acc hacc c hc; exact hacc c hc
  | succ f ih =>
      intro n acc hacc c hc
      have hd : Nat.digitChar (n % 10) ≠ 'X' :=
        digitChar_ne_X _ (Nat.mod_lt _ (by norm_num))
      have hcons : ∀ c' ∈ Nat.digitChar (n % 10) :: acc, c' ≠ 'X' := by
        intro c' hc'
        rcases List.mem_cons.mp hc' with h1 | h2
        · simpa [h1] using hd
        · exact hacc c' h2
      simp only [Nat.toDigitsCore] at hc
      by_cases h : n / 10 = 0
      · rw [if_pos h] at hc
        exact hcons c hc
      · rw [if_neg h] at hc
        exact ih (n / 10) _ hcons c hc

theorem natRepr_no_X (n : Nat) : ∀ c ∈ (Nat.repr n).data, c ≠ 'X' := by
  intro c hc
  have hdata : (Nat.repr n).data = Nat.toDigits 10 n := rfl
  rw [hdata, Nat.toDigits] at hc
  exact toDigitsCore_no_X _ _ _ (by simp) c hc

theorem intRepr_noXOR (n : Int) : noXOR n.repr := by
  unfold noXOR
  apply hasXOR_of_no_X
  intro hmem
  cases n with
  | ofNat m => exact natRepr_no_X m 'X' hmem rfl
  | negSucc m =>
      rw [Int.repr, String.data_append] at hmem
      rcases List.mem_append.mp hmem with h | h
      · simp at h
      · exact natRepr_no_X _ 'X' h rfl

/-! ## Inversion and propagation lemmas for the translator -/

theorem exBind_ok_inv {α β : Type} {m : Except Err α} {f : α → Except Err β}
    {b : β} (h : (m >>= f) = .ok b) : ∃ a, m = .ok a ∧ f a = .ok b := by
  cases m with
  | ok a => exact ⟨a, rfl, h⟩
  | error e => simp at h

theorem getAlias_noXOR {ctx : QueryContext} (hctx : CleanCtx ctx) {k : Nat}
    {a : String} (h : ctx.getAlias k = some a) : noXOR a := by
  unfold QueryContext.getAlias at h
  cases hf : ctx.table_aliases.find? (fun p => p.1 = k) with
  | none => rw [hf] at h; simp at h
  | some pr =>
      rw [hf] at h
      simp only [Option.map_some', Option.some.injEq] at h
      exact h ▸ hctx pr (List.mem_of_find?_eq_some hf)

/-- Translation succeeds on every expression free of `Parameter` nodes. -/
theorem translateE_ok_no_param (ctx : QueryContext) :
    ∀ e : Expr, containsParam e = false → ∃ s, translateE ctx e = .ok s
  | .litBool b, _ => ⟨if b then "TRUE" else "FALSE", rfl⟩
  | .litNum n, _ => ⟨n.repr, rfl⟩
  | .litStr s, _ => ⟨formatStringLit s, rfl⟩
  | .param, h => Bool.noConfusion h
  | .column tid nm, _ => by
      cases hna : ctx.needAliases with
      | false =>
          refine ⟨quoteField nm, ?_⟩
          simp [translateE, hna]
      | true =>
          cases hga : ctx.getAlias tid with
          | none =>
              refine ⟨quoteField nm, ?_⟩
              simp [translateE, hna, hga]
          | some a =>
              refine ⟨a ++ "." ++ quoteField nm, ?_⟩
              simp [translateE, hna, hga]
  | .isNull a, h => by
      obtain ⟨s, hs⟩ :=
        translateE_ok_no_param ctx a (by simpa [containsParam] using h)
      refine ⟨s ++ " IS NULL", ?_⟩
      simp [translateE, hs]
  | .notNull a, h => by
      obtain ⟨s, hs⟩ :=
        translateE_ok_no_param ctx a (by simpa [containsParam] using h)
      refine ⟨s ++ " IS NOT NULL", ?_⟩
      simp [translateE, hs]
  | .negate b a, h => by
      obtain ⟨s, hs⟩ :=
        translateE_ok_no_param ctx a (by simpa [containsParam] using h)
      cases b with
      | true =>
          refine ⟨"NOT " ++ s, ?_⟩
          simp [translateE, hs]
      | false =>
          refine ⟨"-" ++ (if needsParensE a then parenthesize s else s), ?_⟩
          simp [translateE, hs]
  | .unary f a, h => by
      obtain ⟨s, hs⟩ :=
        translateE_ok_no_param ctx a (by simpa [containsParam] using h)
      refine ⟨f.fname ++ "(" ++ s ++ ")", ?_⟩
      simp [translateE, hs]
  | .binop k l r, h => by
      rw [containsParam, Bool.or_eq_false_iff] at h
      obtain ⟨ls, hls⟩ := translateE_ok_no_param ctx l h.1
      obtain ⟨rs, hrs⟩ := translateE_ok_no_param ctx r h.2
      refine ⟨(if needsParensE l then parenthesize ls else ls) ++ " " ++
        k.sym ++ " " ++ (if needsParensE r then parenthesize rs else rs), ?_⟩
      simp [translateE, hls, hrs]
  | .xor l r, h => by
      rw [containsParam, Bool.or_eq_false_iff] at h
      obtain ⟨ls, hls⟩ := translateE_ok_no_param ctx l h.1
      obtain ⟨rs, hrs⟩ := translateE_ok_no_param ctx r h.2
      refine ⟨"(" ++ (if needsParensE l then parenthesize ls else ls) ++
        " OR " ++ (if needsParensE r then parenthesize rs else rs) ++ ")" ++
        " AND NOT " ++
        ("(" ++ (if needsParensE l then parenthesize ls else ls) ++ " AND " ++
          (if needsParensE r then parenthesize rs else rs) ++ ")"), ?_⟩
      simp [translateE, hls, hrs]
  | .cast t a, h => by
      obtain ⟨s, hs⟩ :=
        translateE_ok_no_param ctx a (by simpa [containsParam] using h)
      refine ⟨"CAST(" ++ s ++ " AS " ++ t.sqlName ++ ")", ?_⟩
      simp [translateE, hs]

/-- Any expression containing a `Parameter` node fails to translate, with
the `NotImplementedError` of `_trans_param`. -/
theorem translateE_err_param (ctx : QueryContext) :
    ∀ e : Expr, containsParam e = true →
      translateE ctx e = .error (.notImplemented "")
  | .param, _ => rfl
  | .litBool b, h => by simp [containsParam] at h
  | .litNum n, h => by simp [containsParam] at h
  | .litStr s, h => by simp [containsParam] at h
  | .column tid nm, h => by simp [containsParam] at h
  | .isNull a, h => by
      have := translateE_err_param ctx a (by simpa [containsParam] using h)
      simp [translateE, this]
  | .notNull a, h => by
      have := translateE_err_param ctx a (by simpa [containsParam] using h)
      simp [translateE, this]
  | .negate b a, h => by
      have := translateE_err_param ctx a (by simpa [containsParam] using h)
      simp [translateE, this]
  | .unary f a, h => by
      have := translateE_err_param ctx a (by simpa [containsParam] using h)
      simp [translateE, this]
  | .binop k l r, h => by
      rw [containsParam, Bool.or_eq_true] at h
      cases hcl : containsParam l with
      | true =>
          have := translateE_err_param ctx l hcl
          simp [translateE, this]
      | false =>
          have hcr : containsParam r = true := by
            rcases h with h | h
            · rw [hcl] at h; exact absurd h (by simp)
            · exact h
          obtain ⟨ls, hls⟩ := translateE_ok_no_param ctx l hcl
          have := translateE_err_param ctx r hcr
          simp [translateE, hls, this]
  | .xor l r, h => by
      rw [containsParam, Bool.or_eq_true] at h
      cases hcl : containsParam l with
      | true =>
          have := translateE_err_param ctx l hcl
          simp [translateE, this]
      | false =>
          have hcr : containsParam r = true := by
            rcases h with h | h
            · rw [hcl] at h; exact absurd h (by simp)
            · exact h
          obtain ⟨ls, hls⟩ := translateE_ok_no_param ctx l hcl
          have := translateE_err_param ctx r hcr
          simp [translateE, hls, this]
  | .cast t a, h => by
      have := translateE_err_param ctx a (by simpa [containsParam] using h)
      simp [translateE, this]

/-- Wrapping in parentheses when needed preserves `noXOR`. -/
theorem noXOR_wrap (e : Expr) {s : String} (hs : noXOR s) :
    noXOR (if needsParensE e then parenthesize s else s) := by
  by_cases h : needsParensE e
  · rw [if_pos h]; exact noXOR_paren hs
  · rw [if_neg h]; exact hs

/-- The translator never emits the substring `XOR` on its own: for every
expression whose rendered atoms are `XOR`-free, under a context whose
aliases are `XOR`-free, the translation is `XOR`-free. -/
theorem translateE_noXOR (ctx : QueryContext) (hctx : CleanCtx ctx) :
    ∀ (e : Expr) (s : String), CleanE e → translateE ctx e = .ok s →
      noXOR s
  | .litBool b, s, _, h => by
      cases b <;>
        · simp only [translateE, Except.ok.injEq] at h
          subst h
          decide
  | .litNum n, s, _, h => by
      simp only [translateE, Except.ok.injEq] at h
      exact h ▸ intRepr_noXOR n
  | .litStr s0, s, hc, h => by
      simp only [translateE, Except.ok.injEq] at h
      exact h ▸ hc
  | .param, s, _, h => by simp [translateE] at h
  | .column tid nm, s, hc, h => by
      rw [translateE] at h
      cases hna : ctx.needAliases with
      | false =>
          rw [hna] at h
          simp only [Bool.false_eq_true, if_false, Except.ok.injEq] at h
          exact h ▸ hc
      | true =>
          rw [hna] at h
          simp only [if_true] at h
          cases hga : ctx.getAlias tid with
          | none =>
              rw [hga] at h
              simp only [Except.ok.injEq] at h
              exact h ▸ hc
          | some a =>
              rw [hga] at h
              simp only [Except.ok.injEq] at h
              have ha : noXOR a := getAlias_noXOR hctx hga
              exact h ▸ noXOR_glue "." ha hc (by decide) (by decide)
                (by decide) (by decide)
  | .isNull a, s, hc, h => by
      rw [translateE] at h
      obtain ⟨s1, h1, h2⟩ := exBind_ok_inv h
      simp only [Except.ok.injEq] at h2
      have hs1 := translateE_noXOR ctx hctx a s1 hc h1
      exact h2 ▸ noXOR_append_right hs1 (by decide) (by decide)
  | .notNull a, s, hc, h => by
      rw [translateE] at h
      obtain ⟨s1, h1, h2⟩ := exBind_ok_inv h
      simp only [Except.ok.injEq] at h2
      have hs1 := translateE_noXOR ctx hctx a s1 hc h1
      exact h2 ▸ noXOR_append_right hs1 (by decide) (by decide)
  | .negate b a, s, hc, h => by
      rw [translateE] at h
      obtain ⟨s1, h1, h2⟩ := exBind_ok_inv h
      have hs1 := translateE_noXOR ctx hctx a s1 hc h1
      cases b with
      | true =>
          simp only [if_true, Except.ok.injEq] at h2
          exact h2 ▸ noXOR_append_left (by decide) hs1 (by decide)
      | false =>
          simp only [Bool.false_eq_true, if_false, Except.ok.injEq] at h2
          exact h2 ▸ noXOR_append_left (by decide) (noXOR_wrap a hs1)
            (by decide)
  | .unary f a, s, hc, h => by
      rw [translateE] at h
      obtain ⟨s1, h1, h2⟩ := exBind_ok_inv h
      simp only [Except.ok.injEq] at h2
      have hs1 := translateE_noXOR ctx hctx a s1 hc h1
      have hG : noXOR (f.fname ++ "(") := by cases f <;> decide
      have hGl : lastSafeChars (f.fname ++ "(").data = true := by
        cases f <;> decide
      exact h2 ▸ noXOR_append_right
        (noXOR_append_left hG hs1 hGl) (by decide) (by decide)
  | .binop k l r, s, hc, h => by
      rw [translateE] at h
      obtain ⟨ls, hl, h2⟩ := exBind_ok_inv h
      obtain ⟨rs, hr, h3⟩ := exBind_ok_inv h2
      simp only [Except.ok.injEq] at h3
      have hls := noXOR_wrap l (translateE_noXOR ctx hctx l ls hc.1 hl)
      have hrs := noXOR_wrap r (translateE_noXOR ctx hctx r rs hc.2 hr)
      have hre : (if needsParensE l then parenthesize ls else ls) ++ " " ++
          k.sym ++ " " ++ (if needsParensE r then parenthesize rs else rs) =
          (if needsParensE l then parenthesize ls else ls) ++
            (" " ++ k.sym ++ " ") ++
            (if needsParensE r then parenthesize rs else rs) := by
        simp only [String.append_assoc]
      rw [← h3, hre]
      exact noXOR_glue (" " ++ k.sym ++ " ") hls hrs
        (by cases k <;> decide) (by cases k <;> decide)
        (by cases k <;> decide) (by cases k <;> decide)
  | .xor l r, s, hc, h => by
      rw [translateE] at h
      obtain ⟨ls, hl, h2⟩ := exBind_ok_inv h
      obtain ⟨rs, hr, h3⟩ := exBind_ok_inv h2
      simp only [Except.ok.injEq] at h3
      have hls := noXOR_wrap l (translateE_noXOR ctx hctx l ls hc.1 hl)
      have hrs := noXOR_wrap r (translateE_noXOR ctx hctx r rs hc.2 hr)
      have hp : ∀ g : String, noXOR g → headSafeChars g.data = true →
          lastSafeChars g.data = true → g.data ≠ [] →
          noXOR ("(" ++ (if needsParensE l then parenthesize ls else ls) ++
            g ++ (if needsParensE r then parenthesize rs else rs) ++ ")") := by
        intro g hg hh hl' hne
        refine noXOR_append_right ?_ (by decide) (by decide)
        refine noXOR_append_left ?_ hrs (lastSafe_str_append _ g hl' hne)
        refine noXOR_append_right ?_ hg hh
        exact noXOR_append_left (by decide) hls (by decide)
      rw [← h3]
      exact noXOR_glue " AND NOT "
        (hp " OR " (by decide) (by decide) (by decide) (by decide))
        (hp " AND " (by decide) (by decide) (by decide) (by decide))
        (by decide) (by decide) (by decide) (by decide)
  | .cast t a, s, hc, h => by
      rw [translateE] at h
      obtain ⟨s1, h1, h2⟩ := exBind_ok_inv h
      simp only [Except.ok.injEq] at h2
      have hs1 := translateE_noXOR ctx hctx a s1 hc h1
      have hty : noXOR t.sqlName := by cases t <;> decide
      refine h2 ▸ noXOR_append_right ?_ (by decide) (by decide)
      refine noXOR_append_left ?_ hty
        (lastSafe_str_append _ " AS " (by decide) (by decide))
      refine noXOR_append_right ?_ (by decide) (by decide)
      exact noXOR_append_left (by decide) hs1 (by decide)

/-! ## Lemmas about the group-by identity check -/

theorem checkGroupByOrder_ok : ∀ gb ss : List SelectItem,
    isIdPrefixOf gb ss = true → checkGroupByOrder gb ss = .ok ()
  | [], _, _ => rfl
  | _ :: _, [], h => by simp [isIdPrefixOf] at h
  | g :: gs, s :: ss, h => by
      rw [isIdPrefixOf, Bool.and_eq_true, beq_iff_eq] at h
      rw [checkGroupByOrder, if_pos h.1]
      exact checkGroupByOrder_ok gs ss h.2

theorem checkGroupByOrder_idx : ∀ gb ss : List SelectItem,
    overlapMatches gb ss = true → ss.length < gb.length →
    checkGroupByOrder gb ss = .error .indexError
  | [], _, _, hlen => by simp at hlen
  | _ :: _, [], _, _ => rfl
  | g :: gs, s :: ss, h, hlen => by
      rw [overlapMatches, Bool.and_eq_true, beq_iff_eq] at h
      rw [checkGroupByOrder, if_pos h.1]
      exact checkGroupByOrder_idx gs ss h.2 (by simpa using hlen)

theorem checkGroupByOrder_internal : ∀ gb ss : List SelectItem,
    overlapMatches gb ss = false →
    checkGroupByOrder gb ss = .error (.internalError "Select was improperly formed")
  | [], _, h => by simp [overlapMatches] at h
  | _ :: _, [], h => by simp [overlapMatches] at h
  | g :: gs, s :: ss, h => by
      rw [overlapMatches, Bool.and_eq_false_iff] at h
      rw [checkGroupByOrder]
      rcases h with h | h
      · rw [if_neg (by simpa using h)]
      · by_cases hgs : g.sid = s.sid
        · rw [if_pos hgs]
          exact checkGroupByOrder_internal gs ss h
        · rw [if_neg hgs]

/-! ## Lemmas about context population -/

theorem find?_none_of_hasAlias_false {ctx : QueryContext} {k : Nat}
    (h : ctx.hasAliasFor k = false) :
    ctx.table_aliases.find? (fun p => p.1 = k) = none := by
  unfold QueryContext.hasAliasFor QueryContext.getAlias at h
  cases hf : ctx.table_aliases.find? (fun p => p.1 = k) with
  | none => rfl
  | some pr => rw [hf] at h; simp at h

theorem updateAssoc_not_mem : ∀ (l : List (Nat × String)) (k : Nat)
    (v : String), (∀ p ∈ l, p.1 ≠ k) → updateAssoc l k v = l ++ [(k, v)]
  | [], _, _, _ => rfl
  | (k0, v0) :: rest, k, v, h => by
      rw [updateAssoc, if_neg (h (k0, v0) (by simp))]
      rw [updateAssoc_not_mem rest k v (fun p hp => h p (by simp [hp]))]
      simp

theorem makeAlias_fresh {ctx : QueryContext} {r : Nat}
    (h : ctx.hasAliasFor r = false) :
    (ctx.makeAlias r).table_aliases =
      ctx.table_aliases ++
        [(r, "t" ++ toString ctx.table_aliases.length)] := by
  unfold QueryContext.makeAlias QueryContext.setAlias
  have hfind := find?_none_of_hasAlias_false h
  have hmem : ∀ p ∈ ctx.table_aliases, p.1 ≠ r := by
    intro p hp
    have := List.find?_eq_none.mp hfind p hp
    simpa using this
  exact updateAssoc_not_mem _ _ _ hmem

theorem find?_append_single_none {l : List (Nat × String)} {r r' : Nat}
    {v : String} (hne : r' ≠ r)
    (h : l.find? (fun p => p.1 = r') = none) :
    (l ++ [(r, v)]).find? (fun p => p.1 = r') = none := by
  rw [List.find?_append, h]
  have hrr : ¬(r = r') := fun hEq => hne hEq.symm
  simp [Option.or, List.find?, hrr]

theorem populateRoots_aliases : ∀ (roots : List Nat) (ctx : QueryContext),
    roots.Nodup → (∀ r ∈ roots, ctx.hasAliasFor r = false) →
    (populateRoots roots ctx).table_aliases =
      ctx.table_aliases ++ aliasListFrom ctx.table_aliases.length roots
  | [], ctx, _, _ => by simp [populateRoots, aliasListFrom]
  | r :: rs, ctx, hnd, hfresh => by
      have hstep := makeAlias_fresh (hfresh r (by simp))
      have hnd' : rs.Nodup := (List.nodup_cons.mp hnd).2
      have hne : ∀ r' ∈ rs, r' ≠ r := by
        intro r' hr'
        intro hEq
        exact (List.nodup_cons.mp hnd).1 (hEq ▸ hr')
      have hfresh' : ∀ r' ∈ rs, (ctx.makeAlias r).hasAliasFor r' = false := by
        intro r' hr'
        unfold QueryContext.hasAliasFor QueryContext.getAlias
        rw [hstep, find?_append_single_none (hne r' hr')
          (find?_none_of_hasAlias_false (hfresh r' (by simp [hr'])))]
        rfl
      have ih := populateRoots_aliases rs (ctx.makeAlias r) hnd' hfresh'
      show (populateRoots rs (ctx.makeAlias r)).table_aliases = _
      rw [ih, hstep]
      have hlen : (ctx.table_aliases ++
          [(r, "t" ++ toString ctx.table_aliases.length)]).length =
          ctx.table_aliases.length + 1 := by simp
      rw [hlen]
      rw [aliasListFrom]
      simp

theorem aliasListFrom_map_fst : ∀ (roots : List Nat) (n : Nat),
    (aliasListFrom n roots).map Prod.fst = roots
  | [], _ => rfl
  | r :: rs, n => by
      rw [aliasListFrom, List.map_cons, aliasListFrom_map_fst rs (n + 1)]

theorem aliasListFrom_map_snd : ∀ (roots : List Nat) (n : Nat),
    (aliasListFrom n roots).map Prod.snd =
      (List.range roots.length).map (fun i => "t" ++ toString (n + i))
  | [], _ => rfl
  | r :: rs, n => by
      rw [aliasListFrom, List.map_cons, aliasListFrom_map_snd rs (n + 1),
        List.length_cons, List.range_succ_eq_map, List.map_cons,
        List.map_map]
      refine List.cons_eq_cons.mpr ⟨by simp, ?_⟩
      apply List.map_congr_left
      intro a _
      show "t" ++ toString (n + 1 + a) = "t" ++ toString (n + (a + 1))
      have h : n + 1 + a = n + (a + 1) := by omega
      rw [h]

theorem dedupFirstAux_not_seen : ∀ (l seen : List Nat) (x : Nat),
    x ∈ dedupFirstAux seen l → x ∉ seen
  | [], _, x, hx => by simp [dedupFirstAux] at hx
  | y :: l, seen, x, hx => by
      rw [dedupFirstAux] at hx
      by_cases hy : y ∈ seen
      · rw [if_pos hy] at hx
        exact dedupFirstAux_not_seen l seen x hx
      · rw [if_neg hy] at hx
        rcases List.mem_cons.mp hx with h | h
        · exact h ▸ hy
        · intro hseen
          exact dedupFirstAux_not_seen l (y :: seen) x h
            (List.mem_cons_of_mem _ hseen)

theorem dedupFirstAux_nodup : ∀ (l seen : List Nat),
    (dedupFirstAux seen l).Nodup
  | [], _ => List.nodup_nil
  | y :: l, seen => by
      rw [dedupFirstAux]
      by_cases hy : y ∈ seen
      · rw [if_pos hy]
        exact dedupFirstAux_nodup l seen
      · rw [if_neg hy]
        refine List.nodup_cons.mpr ⟨?_, dedupFirstAux_nodup l (y :: seen)⟩
        intro hmem
        exact dedupFirstAux_not_seen l (y :: seen) y hmem (by simp)

theorem rootTables_nodup (t : TableNode) : (rootTables t).Nodup :=
  dedupFirstAux_nodup _ _

theorem mkSelect_populate (ts : TableNode) (ss : List SelectItem)
    (w : Option (List Expr)) (g : Option (List SelectItem))
    (o : Option (List SortKey)) (li : Option LimitSpec)
    (hv : Option (List Expr)) (sq : Option (List SubQuery))
    (p : Option TableNode) (ind : Nat) (ctx : QueryContext) :
    (mkSelect ts ss w g o li hv sq p ind).populateContext ctx =
      populateRoots (rootTables ts) ctx := rfl

/-! ## Helper lemmas about the join walk and the builder pipeline -/

theorem walk_both_join (ctx : QueryContext) (st : JoinState) (nid : Nat)
    (kind : JoinKind) (mat : Bool) (l r : TableNode) (preds : List Expr)
    (hl : l.isJoin = true) (hr : r.isJoin = true) :
    walkJoinTree ctx st (.joinNode nid kind mat l r preds) =
      .error (.notImplemented "Do not support joins between joins yet") := by
  rw [walkJoinTree]
  simp [hl, hr]

theorem walk_right_join (ctx : QueryContext) (st : JoinState) (nid : Nat)
    (kind : JoinKind) (l r : TableNode) (preds : List Expr)
    (hl : l.isJoin = false) (hr : r.isJoin = true) :
    walkJoinTree ctx st (.joinNode nid kind false l r preds) =
      .error (.notImplemented "not allowing joins on right side yet") := by
  rw [walkJoinTree]
  simp [hl, hr, joinNameOf]

theorem buildSelect_join (nid : Nat) (kind : JoinKind) (l r : TableNode)
    (preds : List Expr) :
    buildSelect (mkBuilder (.joinNode nid kind false l r preds)) =
      .ok (mkSelect (.joinNode nid kind false l r preds)
        [.table l.nid l, .table l.nid l] (some []) none (some []) none none
        none (some (.joinNode nid kind false l r preds)) 2) := rfl

theorem formatSelectSet_two_tables (ctx : QueryContext) (ind : Nat)
    (eid₁ eid₂ : Nat) (t₁ t₂ : TableNode) :
    formatSelectSet ctx ind [.table eid₁ t₁, .table eid₂ t₂] =
      .ok ("SELECT " ++ packSelect ind
        [(if ctx.needAliases then optionStr (ctx.getAlias t₁.nid) ++ ".*"
          else "*"),
         (if ctx.needAliases then optionStr (ctx.getAlias t₂.nid) ++ ".*"
          else "*")]) := rfl

theorem formatTableSet_join_err (ctx : QueryContext) (nid : Nat)
    (kind : JoinKind) (mat : Bool) (l r : TableNode) (preds : List Expr)
    (e : Err)
    (hw : walkJoinTree ctx ⟨[], [], []⟩
      (.joinNode nid kind mat l r preds) = .error e) :
    formatTableSet ctx (.joinNode nid kind mat l r preds) = .error e := by
  rw [formatTableSet]
  simp [joinGetResult, hw]

theorem toSql_join_err (nid : Nat) (kind : JoinKind) (l r : TableNode)
    (preds : List Expr) (e : Err)
    (hw : ∀ (ctx : QueryContext) (st : JoinState),
      walkJoinTree ctx st (.joinNode nid kind false l r preds) = .error e) :
    toSql (.joinNode nid kind false l r preds) = .error e := by
  rw [toSql, buildAst, getResult]
  rw [if_neg (by simp [mkBuilder])]
  rw [buildSelect_join]
  simp only [exBind_ok, mkBuilder, wrapResult, List.nil_append,
    List.append_nil]
  rw [Select.compile.eq_def]
  simp only [mkSelect_populate, Select.formatSubqueries, mkSelect]
  rw [formatSelectSet_two_tables]
  simp only [exBind_ok]
  rw [formatTableSet_join_err _ _ _ _ _ _ _ _ (hw _ _)]
  simp only [exBind_error]

theorem buildSelect_projection (nid : Nat) (tbl : TableNode)
    (sels : List SelectItem) :
    buildSelect (mkBuilder (.projection nid tbl sels)) =
      .ok (mkSelect tbl sels (some []) none (some []) none none none
        (some (.projection nid tbl sels)) 2) := rfl

theorem formatSelectSet_param (ctx : QueryContext) (ind eid : Nat)
    (nm : Option String) :
    formatSelectSet ctx ind [.value eid .param nm] =
      .error (.notImplemented "") := rfl

theorem toSql_projection_param (nid : Nat) (tbl : TableNode) (eid : Nat)
    (nm : Option String) :
    toSql (.projection nid tbl [.value eid .param nm]) =
      .error (.notImplemented "") := by
  rw [toSql, buildAst, getResult]
  rw [if_neg (by simp [mkBuilder])]
  rw [buildSelect_projection]
  simp only [exBind_ok, mkBuilder, wrapResult, List.nil_append,
    List.append_nil]
  rw [Select.compile.eq_def]
  simp only [mkSelect_populate, Select.formatSubqueries, mkSelect]
  rw [formatSelectSet_param]
  simp only [exBind_error]

/-! ## Concrete fixtures used by counterexamples and witnesses -/

/-- A context with two aliases bound (for relations 1 and 2). -/
def ctxTwo : QueryContext := ⟨[(1, "t0"), (2, "t1")]⟩

/-- A named physical table with identity 1. -/
def tblA : TableNode := .physicalTable 1 (some "tbl_a")

/-- A named physical table with identity 2. -/
def tblB : TableNode := .physicalTable 2 (some "tbl_b")

/-- An unmaterialized inner join of `tblA` and `tblB`. -/
def joinAB : TableNode := .joinNode 10 .inner false tblA tblB []

/-- A select-set entry that appears in no select set. -/
def orphanItem : SelectItem := .value 0 (.litBool true) none

/-- A named column entry usable both as group key and select entry. -/
def keyItem : SelectItem := .value 1 (.column 1 "a") (some "a")

/-- The builder for `tblA` before `get_result` has run. -/
def builderW : QueryASTBuilder := mkBuilder tblA

/-- The select that `_build_select` produces for `tblA`. -/
def selW : Select :=
  mkSelect tblA [.table 1 tblA] (some []) none (some []) none none none
    (some tblA) 2

/-- The builder state after the first successful `get_result`. -/
def builderW2 : QueryASTBuilder := { builderW with queries := [selW] }

/-- The AST the first `get_result` call returns. -/
def astW : QueryAST := ⟨emptyContext, [selW]⟩

/-! ## Claim theorems -/

/-- C1 (counterexample): the claim says a violated group-by prefix
invariant always raises `InternalError`; but when `group_by` is longer
than `select_set` (the invariant is violated), the loop indexes past the
end of the select set and an `IndexError` — not an `InternalError` —
escapes. -/
theorem claim_C1_counterexample :
    formatGroupBy [orphanItem] [] = .error .indexError ∧
      Err.isInternal .indexError = false := ⟨rfl, rfl⟩

/-- C1 (amended): for a non-empty `group_by`, `format_group_by` renders
`GROUP BY 1, …, k` when `group_by` is the identity-prefix of
`select_set`; when the lists disagree on their overlap it raises
`InternalError`; when they agree on the overlap but `group_by` is longer,
the out-of-range indexing raises `IndexError` instead. -/
theorem claim_C1_group_by_amended : ∀ (gb ss : List SelectItem), gb ≠ [] →
    (isIdPrefixOf gb ss = true →
      formatGroupBy gb ss = .ok (some (groupByClause gb.length))) ∧
    (overlapMatches gb ss = true → ss.length < gb.length →
      formatGroupBy gb ss = .error .indexError) ∧
    (overlapMatches gb ss = false →
      formatGroupBy gb ss =
        .error (.internalError "Select was improperly formed")) := by
  intro gb ss hne
  have hlen : ¬(gb.length = 0) := by simpa using hne
  refine ⟨?_, ?_, ?_⟩
  · intro h
    rw [formatGroupBy, if_neg hlen]
    simp [checkGroupByOrder_ok gb ss h]
  · intro h hshort
    rw [formatGroupBy, if_neg hlen]
    simp [checkGroupByOrder_idx gb ss h hshort]
  · intro h
    rw [formatGroupBy, if_neg hlen]
    simp [checkGroupByOrder_internal gb ss h]

/-- C1 (witness): a singleton group-by list that is the prefix of the
select set renders `GROUP BY 1`. -/
theorem claim_C1_witness :
    formatGroupBy [keyItem] [keyItem] = .ok (some "GROUP BY 1") := by
  have h := (claim_C1_group_by_amended [keyItem] [keyItem] (by simp)).1
    (by decide)
  exact h.trans (by rfl)

/-- C2 (counterexample): the claim says the token `XOR` never appears in
any output; but the translation of the string literal `'XOR'` contains it
verbatim. -/
theorem claim_C2_counterexample :
    translateE emptyContext (.litStr "XOR") = .ok (formatStringLit "XOR") ∧
      hasXOR (formatStringLit "XOR").data = true := ⟨rfl, by decide⟩

/-- C2 (amended): `Xor(L, R)` renders as `(A OR B) AND NOT (A AND B)`
with both operands parenthesized exactly when they are in the needs-parens
set, and the token `XOR` never appears in the rendering of any expression
except inside user-supplied atom text (rendered string literals, column
names, or context aliases that already contain it). -/
theorem claim_C2_xor_amended :
    (∀ (ctx : QueryContext) (l r : Expr) (ls rs : String),
      translateE ctx l = .ok ls → translateE ctx r = .ok rs →
      translateE ctx (.xor l r) =
        .ok ("(" ++ (if needsParensE l then parenthesize ls else ls) ++
          " OR " ++ (if needsParensE r then parenthesize rs else rs) ++
          ")" ++ " AND NOT " ++
          ("(" ++ (if needsParensE l then parenthesize ls else ls) ++
            " AND " ++ (if needsParensE r then parenthesize rs else rs) ++
            ")"))) ∧
    (∀ (ctx : QueryContext) (e : Expr) (s : String), CleanCtx ctx →
      CleanE e → translateE ctx e = .ok s → noXOR s) := by
  constructor
  · intro ctx l r ls rs h1 h2
    simp [translateE, h1, h2]
  · intro ctx e s hc hce h
    exact translateE_noXOR ctx hc e s hce h

/-- C2 (witness): the XOR of two plain columns renders to the rewritten
form, with no `XOR` token. -/
theorem claim_C2_witness :
    translateE emptyContext (.xor (.column 0 "a") (.column 0 "b")) =
      .ok "(a OR b) AND NOT (a AND b)" := by
  have h := claim_C2_xor_amended.1 emptyContext (.column 0 "a")
    (.column 0 "b") "a" "b" (by rfl) (by rfl)
  exact h.trans (by rfl)

/-- C3 (confirmed): populating a fresh context binds, for the `K` distinct
roots of the table set, exactly the aliases `t0 … t{K-1}` in visit order
(the root list is duplicate-free by construction); two table expressions
wrapping the same relation node resolve to the same alias; and
`need_aliases` holds exactly when at least two aliases are bound. -/
theorem claim_C3_alias_stability :
    (∀ (ts : TableNode) (ss : List SelectItem) (w : Option (List Expr))
      (g : Option (List SelectItem)) (o : Option (List SortKey))
      (li : Option LimitSpec) (hv : Option (List Expr))
      (sq : Option (List SubQuery)) (p : Option TableNode) (ind : Nat),
      ((mkSelect ts ss w g o li hv sq p ind).populateContext
        emptyContext).table_aliases = aliasListFrom 0 (rootTables ts)) ∧
    (∀ ts : TableNode,
      (aliasListFrom 0 (rootTables ts)).map Prod.fst = rootTables ts ∧
      (aliasListFrom 0 (rootTables ts)).map Prod.snd =
        (List.range (rootTables ts).length).map
          (fun i => "t" ++ toString i) ∧
      (rootTables ts).Nodup) ∧
    (∀ (ctx : QueryContext) (e₁ e₂ : TableExpr), e₁.op.nid = e₂.op.nid →
      ctx.getAliasExpr e₁ = ctx.getAliasExpr e₂) ∧
    (∀ ctx : QueryContext,
      ctx.needAliases = true ↔ 2 ≤ ctx.table_aliases.length) := by
  refine ⟨?_, ?_, ?_, ?_⟩
  · intro ts ss w g o li hv sq p ind
    rw [mkSelect_populate]
    have h := populateRoots_aliases (rootTables ts) emptyContext
      (rootTables_nodup ts) (fun r _ => rfl)
    simpa [emptyContext] using h
  · intro ts
    refine ⟨aliasListFrom_map_fst _ _, ?_, rootTables_nodup ts⟩
    rw [aliasListFrom_map_snd]
    apply List.map_congr_left
    intro i _
    rw [Nat.zero_add]
  · intro ctx e₁ e₂ h
    unfold QueryContext.getAliasExpr tableKeyOf
    rw [h]
  · intro ctx
    simp [QueryContext.needAliases]
    omega

/-- C3 (witness): the join of two distinct tables allocates exactly
`t0`, `t1`; and two wrappers of one node share the alias. -/
theorem claim_C3_witness :
    ((mkSelect joinAB [] none none none none none none none
      2).populateContext emptyContext).table_aliases =
        [(1, "t0"), (2, "t1")] ∧
    ctxTwo.getAliasExpr ⟨100, tblA⟩ = ctxTwo.getAliasExpr ⟨200, tblA⟩ := by
  constructor
  · exact (claim_C3_alias_stability.1 joinAB [] none none none none none
      none none 2).trans (by rfl)
  · exact claim_C3_alias_stability.2.2.1 ctxTwo ⟨100, tblA⟩ ⟨200, tblA⟩ rfl

/-- C4 (confirmed): the join walk fails with the `NotImplementedError`
(*Unsupported*) kind on a join-of-joins and on a right-leaning join, and
the translator fails with the same kind on a `Parameter` node; in each of
the three classes `to_sql` propagates the error instead of returning a
string. -/
theorem claim_C4_unsupported :
    (∀ (ctx : QueryContext) (st : JoinState) (nid : Nat) (kind : JoinKind)
      (mat : Bool) (l r : TableNode) (preds : List Expr),
      l.isJoin = true → r.isJoin = true →
      walkJoinTree ctx st (.joinNode nid kind mat l r preds) =
        .error (.notImplemented "Do not support joins between joins yet")) ∧
    (∀ (ctx : QueryContext) (st : JoinState) (nid : Nat) (kind : JoinKind)
      (l r : TableNode) (preds : List Expr),
      l.isJoin = false → r.isJoin = true →
      walkJoinTree ctx st (.joinNode nid kind false l r preds) =
        .error (.notImplemented "not allowing joins on right side yet")) ∧
    (∀ (ctx : QueryContext) (e : Expr), containsParam e = true →
      translateE ctx e = .error (.notImplemented "")) ∧
    (∀ (nid : Nat) (kind : JoinKind) (l r : TableNode) (preds : List Expr),
      l.isJoin = true → r.isJoin = true →
      toSql (.joinNode nid kind false l r preds) =
        .error (.notImplemented "Do not support joins between joins yet")) ∧
    (∀ (nid : Nat) (kind : JoinKind) (l r : TableNode) (preds : List Expr),
      l.isJoin = false → r.isJoin = true →
      toSql (.joinNode nid kind false l r preds) =
        .error (.notImplemented "not allowing joins on right side yet")) ∧
    (∀ (nid : Nat) (tbl : TableNode) (eid : Nat) (nm : Option String),
      toSql (.projection nid tbl [.value eid .param nm]) =
        .error (.notImplemented "")) := by
  refine ⟨walk_both_join, walk_right_join, translateE_err_param, ?_, ?_,
    toSql_projection_param⟩
  · intro nid kind l r preds hl hr
    exact toSql_join_err nid kind l r preds _
      (fun ctx st => walk_both_join ctx st nid kind false l r preds hl hr)
  · intro nid kind l r preds hl hr
    exact toSql_join_err nid kind l r preds _
      (fun ctx st => walk_right_join ctx st nid kind l r preds hl hr)

/-- C4 (witness): a concrete join-of-joins fails end to end with the
*Unsupported* kind, and a concrete parameter expression fails to
translate. -/
theorem claim_C4_witness :
    toSql (.joinNode 11 .inner false joinAB joinAB []) =
      .error (.notImplemented "Do not support joins between joins yet") ∧
    translateE emptyContext (.binop .add (.column 1 "x") .param) =
      .error (.notImplemented "") := by
  constructor
  · exact claim_C4_unsupported.2.2.2.1 11 .inner joinAB joinAB [] rfl rfl
  · exact claim_C4_unsupported.2.2.1 emptyContext
      (.binop .add (.column 1 "x") .param) (by decide)

/-- C5 (code bug): spec scenario S6 and the never-misbinds precedence
policy require boolean negation to parenthesize a binary-infix operand,
`NOT (a AND b)`; the boolean branch of `_negate` skips the
`_needs_parens` check and emits `NOT a AND b`, which SQL parses as
`(NOT a) AND b`. -/
theorem claim_C5_negate_no_parens :
    translateE emptyContext
      (.negate true (.binop .andK (.column 0 "a") (.column 0 "b"))) =
        .ok "NOT a AND b" ∧
    "NOT a AND b" ≠ "NOT (a AND b)" := ⟨by rfl, by decide⟩

/-- C6 (counterexample): the claim parenthesizes a child iff it is a
binary-infix operator or a *numeric* `Negate`; but `_needs_parens` tests
the `Negate` class regardless of type, so a boolean `NOT x` child is
parenthesized too. -/
theorem claim_C6_counterexample :
    translateE emptyContext
      (.binop .andK (.negate true (.column 0 "x")) (.column 0 "y")) =
        .ok "(NOT x) AND y" ∧
    "(NOT x) AND y" ≠ "NOT x AND y" := ⟨by rfl, by decide⟩

/-- C6 (amended): every registered binary infix operator renders
`L op R`, wrapping each child in parentheses exactly when it is in the
needs-parens set; and that set consists precisely of the binary-infix
operators (including `Xor`) and `Negate` of either type — in particular
function-call forms, literals and column references are never
parenthesized. -/
theorem claim_C6_binary_infix_amended :
    (∀ (ctx : QueryContext) (k : BinKind) (l r : Expr) (ls rs : String),
      translateE ctx l = .ok ls → translateE ctx r = .ok rs →
      translateE ctx (.binop k l r) =
        .ok ((if needsParensE l then parenthesize ls else ls) ++ " " ++
          k.sym ++ " " ++
          (if needsParensE r then parenthesize rs else rs))) ∧
    (∀ e : Expr, needsParensE e = true ↔
      ((∃ k l r, e = .binop k l r) ∨ (∃ l r, e = .xor l r) ∨
        (∃ b a, e = .negate b a))) := by
  constructor
  · intro ctx k l r ls rs h1 h2
    simp [translateE, h1, h2]
  · intro e
    cases e <;> simp [needsParensE]

/-- C6 (witness): a sum of a column and a literal renders without any
parentheses. -/
theorem claim_C6_witness :
    translateE emptyContext (.binop .add (.column 0 "x") (.litNum 1)) =
      .ok "x + 1" := by
  have h := claim_C6_binary_infix_amended.1 emptyContext .add
    (.column 0 "x") (.litNum 1) "x" "1" (by rfl) (by rfl)
  exact h.trans (by rfl)

/-- C7 (counterexample): the claim says formatting a column whose
relation has no alias under `need_aliases()` fails with a lookup error;
the code instead returns the unqualified column name. -/
theorem claim_C7_counterexample :
    ctxTwo.needAliases = true ∧ ctxTwo.getAlias 3 = none ∧
      translateE ctxTwo (.column 3 "x") = .ok "x" := ⟨rfl, rfl, by rfl⟩

/-- C7 (amended): when `need_aliases()` holds but the owning relation has
no alias bound, `_trans_column_ref` silently emits the unqualified
(quoted-as-needed) column name; no error is raised. -/
theorem claim_C7_column_amended : ∀ (ctx : QueryContext) (tid : Nat)
    (nm : String), ctx.needAliases = true → ctx.getAlias tid = none →
    translateE ctx (.column tid nm) = .ok (quoteField nm) := by
  intro ctx tid nm h1 h2
  simp [translateE, h1, h2]

/-- C7 (witness): the amended behaviour at a concrete context. -/
theorem claim_C7_witness : translateE ctxTwo (.column 3 "y") = .ok "y" := by
  have h := claim_C7_column_amended ctxTwo 3 "y" rfl rfl
  exact h.trans (by rfl)

/-- C8 (counterexample): the claim says the resulting `table_set` denotes
the materialized join; for a plain unmaterialized join input (no shed
modifiers, so the claim applies verbatim), the built select's `table_set`
is the original, *unmaterialized* join expression. -/
theorem claim_C8_counterexample :
    (buildSelect (mkBuilder joinAB)).map (fun s => s.table_set) =
      .ok joinAB ∧
    joinAB.isMaterializedJoin = false := ⟨rfl, rfl⟩

/-- C8 (amended): for a shed root that is an unmaterialized join, the
builder calls `.materialize()` on `self.base_expr` (the builder's unshed
base expression) and uses the resulting `MaterializedJoin` only to pick
the classification branch and its `select_set = [left, left]`; the
`table_set` of the produced select is the shed base expression itself,
which remains unmaterialized. -/
theorem claim_C8_materialize_amended : ∀ (nid : Nat) (kind : JoinKind)
    (l r : TableNode) (preds : List Expr),
    buildSelect (mkBuilder (.joinNode nid kind false l r preds)) =
      .ok (mkSelect (.joinNode nid kind false l r preds)
        [.table l.nid l, .table l.nid l] (some []) none (some []) none
        none none (some (.joinNode nid kind false l r preds)) 2) ∧
    (mkSelect (.joinNode nid kind false l r preds)
      [.table l.nid l, .table l.nid l] (some []) none (some []) none none
      none (some (.joinNode nid kind false l r preds))
      2).table_set.isMaterializedJoin = false :=
  fun nid kind l r preds => ⟨buildSelect_join nid kind l r preds, rfl⟩

/-- C9 (confirmed): once `get_result` has returned an AST, calling it
again on the resulting builder state returns the same AST and the same
state — the query list is built at most once. -/
theorem claim_C9_get_result_idempotent : ∀ (b : QueryASTBuilder)
    (ast : QueryAST) (b2 : QueryASTBuilder),
    getResult b = .ok (ast, b2) → getResult b2 = .ok (ast, b2) := by
  intro b ast b2 h
  rw [getResult] at h
  by_cases hq : b.queries.length > 0
  · rw [if_pos hq] at h
    simp only [Except.ok.injEq, Prod.mk.injEq] at h
    obtain ⟨hast, hb⟩ := h
    rw [getResult, if_pos (hb ▸ hq), ← hb, ← hast]
  · rw [if_neg hq] at h
    cases hbs : buildSelect b with
    | error e => rw [hbs] at h; simp at h
    | ok q =>
        rw [hbs] at h
        simp only [exBind_ok, Except.ok.injEq, Prod.mk.injEq] at h
        obtain ⟨hast, hb⟩ := h
        have hq2 : b2.queries.length > 0 := by
          rw [← hb]
          simp
        rw [getResult, if_pos hq2, ← hast]
        have : wrapResult b2 = ast := by
          rw [← hast, ← hb]
        rw [this, hast]

/-- C9 (witness): a physical-table builder, after one successful
`get_result`, returns the identical AST on the second call. -/
theorem claim_C9_witness : getResult builderW2 = .ok (astW, builderW2) :=
  claim_C9_get_result_idempotent builderW astW builderW2 (by rfl)

/-- C10 (confirmed): however `Select` is constructed, the `subqueries`
argument is discarded and the field is empty; `format_subqueries` always
yields the none marker; and `populate_context` reduces to aliasing the
roots of the table set, never recursing into subqueries. -/
theorem claim_C10_subqueries_empty : ∀ (ts : TableNode)
    (ss : List SelectItem) (w : Option (List Expr))
    (g : Option (List SelectItem)) (o : Option (List SortKey))
    (li : Option LimitSpec) (hv : Option (List Expr))
    (sq : Option (List SubQuery)) (p : Option TableNode) (ind : Nat)
    (ctx : QueryContext),
    (mkSelect ts ss w g o li hv sq p ind).subqueries = [] ∧
    (mkSelect ts ss w g o li hv sq p ind).formatSubqueries ctx = none ∧
    (mkSelect ts ss w g o li hv sq p ind).populateContext ctx =
      populateRoots (rootTables ts) ctx :=
  fun _ _ _ _ _ _ _ _ _ _ _ => ⟨rfl, rfl, rfl⟩

end IbisSql
